import Mathlib

/-!
Verification of the deblend orchestration logic of
`python/lsst/meas/deblender/deblend.py` (SourceDeblendConfig /
SourceDeblendTask).  The pixel-level routine `lsst.meas.deblender.baseline.deblend`,
the image statistics, the PSF model and the catalog container are external
collaborators; they are represented by parameters of the embedding.  Machine
floats carry no arithmetic in this code (values are only computed once and
copied), so they are modelled by rationals.
-/

namespace Deblend

/-- A peak position inside a footprint (`fp.getPeaks()[j]`). -/
structure Peak where
  ix : Int
  iy : Int
deriving DecidableEq

/-- A bounding box (`fp.getBBox()`); only ever passed around, never inspected. -/
structure BBox where
  x0 : Int
  y0 : Int
  x1 : Int
  y1 : Int
deriving DecidableEq

/-- A footprint: pixel-region description with its peak list and bounding box. -/
structure Footprint where
  peaks : List Peak
  bbox : BBox
deriving DecidableEq

/-- Result of `psf.computeShape()`: only the determinant radius is consumed. -/
structure PsfShape where
  detRadius : ℚ
deriving DecidableEq

/-- The PSF model.  `computeShape` is the no-argument query the code performs
(the shape at the PSF's default position); `computeShapeAt` is the
position-dependent query, carried so that the spec's description of
`_getPsfFwhm` can be stated and compared. -/
structure Psf where
  computeShape : PsfShape
  computeShapeAt : BBox → PsfShape

/-- `SourceDeblendTask._getPsfFwhm(psf, bbox)`:
`psf.computeShape().getDeterminantRadius() * 2.35`.  The `bbox` parameter is
part of the signature but does not occur in the body. -/
def getPsfFwhm (psf : Psf) (_bbox : BBox) : ℚ :=
  psf.computeShape.detRadius * 2.35

/-- Refinement reference following the spec's words (§4.1 step 4): the PSF
width queried at the candidate's footprint bounding box. -/
def psfFwhmAtBBoxSpec (psf : Psf) (bbox : BBox) : ℚ :=
  (psf.computeShapeAt bbox).detRadius * 2.35

/-- `SourceDeblendConfig.edgeHandling` choice field. -/
inductive EdgeHandling where
  | clip
  | ramp
  | noclip
deriving DecidableEq

/-- `SourceDeblendConfig.strayFluxToPointSources` choice field. -/
inductive StrayFluxPolicy where
  | necessary
  | always
  | never
deriving DecidableEq

/-- `SourceDeblendConfig` with the source's default values. -/
structure SourceDeblendConfig where
  edgeHandling : EdgeHandling := EdgeHandling.ramp
  strayFluxToPointSources : StrayFluxPolicy := StrayFluxPolicy.necessary
  findStrayFlux : Bool := true
  assignStrayFlux : Bool := true
  clipStrayFluxFraction : ℚ := 0.001
  psfChisq1 : ℚ := 1.5
  psfChisq2 : ℚ := 1.5
  psfChisq2b : ℚ := 1.5
  maxNumberOfPeaks : Int := 0
  tinyFootprintSize : Int := 2
deriving DecidableEq

/-- The keyword arguments the orchestrator passes to the external
`baseline.deblend` call (lines 190-204), including the derived ones. -/
structure BaselineArgs where
  psfChisqCut1 : ℚ
  psfChisqCut2 : ℚ
  psfChisqCut2b : ℚ
  maxNumberOfPeaks : Int
  strayFluxToPointSources : StrayFluxPolicy
  assignStrayFlux : Bool
  findStrayFlux : Bool
  rampFluxAtEdge : Bool
  patchEdges : Bool
  tinyFootprintSize : Int
  clipStrayFluxFraction : ℚ
deriving DecidableEq

/-- Builds the argument record exactly as the call site does:
`findStrayFlux=(assignStrayFlux or findStrayFlux)`,
`rampFluxAtEdge=(edgeHandling == 'ramp')`, `patchEdges=(edgeHandling == 'noclip')`. -/
def mkBaselineArgs (cfg : SourceDeblendConfig) : BaselineArgs where
  psfChisqCut1 := cfg.psfChisq1
  psfChisqCut2 := cfg.psfChisq2
  psfChisqCut2b := cfg.psfChisq2b
  maxNumberOfPeaks := cfg.maxNumberOfPeaks
  strayFluxToPointSources := cfg.strayFluxToPointSources
  assignStrayFlux := cfg.assignStrayFlux
  findStrayFlux := cfg.assignStrayFlux || cfg.findStrayFlux
  rampFluxAtEdge := cfg.edgeHandling = EdgeHandling.ramp
  patchEdges := cfg.edgeHandling = EdgeHandling.noclip
  tinyFootprintSize := cfg.tinyFootprintSize
  clipStrayFluxFraction := cfg.clipStrayFluxFraction

/-- One per-peak outcome of the external routine (`res.peaks[j]`): the fields
the orchestrator reads. -/
structure DeblendedPeak where
  skip : Bool
  fluxPortion : Option Footprint
  deblendedAsPsf : Bool
  psfFitCenter : ℚ × ℚ
  psfFitFlux : ℚ
  strayFlux : Option Unit
  hasRampedTemplate : Bool
  patched : Bool
deriving DecidableEq

/-- The external routine's result structure (`res`). -/
structure DeblendResult where
  peaks : List DeblendedPeak
deriving DecidableEq

deriving instance DecidableEq for Except

/-- A catalog row, restricted to the fields this task reads or writes.  Flag
and value fields are `Option`s with `none` meaning "never written by this
code" (the schema default). -/
structure SourceRecord where
  id : Nat
  parent : Nat
  footprint : Footprint
  tooManyPeaks : Option Bool
  deblendFailed : Option Bool
  deblendSkipped : Option Bool
  nchild : Option Nat
  deblendedAsPsf : Option Bool
  psfCenter : Option (ℚ × ℚ)
  psfFlux : Option ℚ
  rampedTemplate : Option Bool
  patchedTemplate : Option Bool
  hasStrayFlux : Option Bool
deriving DecidableEq

/-- The mutable state of a run: the source catalog (append-only, in order)
and the table's id factory counter used by `srcs.addNew()`. -/
structure DeblendState where
  cat : List SourceRecord
  nextId : Nat
deriving DecidableEq

/-- The per-run read-only context: the configuration, the PSF, the noise
level `sigma1` computed once from the variance plane, and the external
`baseline.deblend` routine (which may raise; the error payload is opaque). -/
structure RunCtx where
  cfg : SourceDeblendConfig
  psf : Psf
  sigma1 : ℚ
  ext : Footprint → ℚ → ℚ → BaselineArgs → Except Unit DeblendResult

/-- The external dispatch of lines 190-204: `deblend(fp, mi, psf, psf_fwhm,
sigma1=sigma1, ...config...)`, `mi` being fixed for the run and absorbed into
`ext`. -/
def extDispatch (ctx : RunCtx) (fp : Footprint) : Except Unit DeblendResult :=
  ctx.ext fp (getPsfFwhm ctx.psf fp.bbox) ctx.sigma1 (mkBaselineArgs ctx.cfg)

/-- A peak outcome that produces a child: not skip-flagged and carrying a
flux portion. -/
def keepPeak (pk : DeblendedPeak) : Bool :=
  !pk.skip && pk.fluxPortion.isSome

/-- The per-peak condition that writes `deblendSkipped = True`: skip-flagged
or missing its flux portion. -/
def skipStatus (pk : DeblendedPeak) : Bool :=
  pk.skip || pk.fluxPortion.isNone

/-- The child row built by lines 233-244: `srcs.addNew()` then the field
writes.  Fields the code does not write stay at their defaults. -/
def mkChild (cid parentId : Nat) (pk : DeblendedPeak) (heavy : Footprint) :
    SourceRecord where
  id := cid
  parent := parentId
  footprint := heavy
  tooManyPeaks := none
  deblendFailed := none
  deblendSkipped := none
  nchild := none
  deblendedAsPsf := some pk.deblendedAsPsf
  psfCenter := if pk.deblendedAsPsf then some pk.psfFitCenter else none
  psfFlux := if pk.deblendedAsPsf then some pk.psfFitFlux else none
  rampedTemplate := some pk.hasRampedTemplate
  patchedTemplate := some pk.patched
  hasStrayFlux := some pk.strayFlux.isSome

/-- Accumulator of the `for j,peak in enumerate(res.peaks)` loop: the
parent's `deblendSkipped` slot, the `kids` list, the `nchild` counter, and
the id factory counter. -/
structure PeakAcc where
  skipped : Option Bool
  kids : List SourceRecord
  nchild : Nat
  nextId : Nat
deriving DecidableEq

/-- One iteration of the peak loop (lines 215-244). -/
def processPeak (parentId : Nat) (acc : PeakAcc) (pk : DeblendedPeak) : PeakAcc :=
  if pk.skip then
    { acc with skipped := some true }
  else
    match pk.fluxPortion with
    | none => { acc with skipped := some true }
    | some heavy =>
        { skipped := some false
          kids := acc.kids ++ [mkChild acc.nextId parentId pk heavy]
          nchild := acc.nchild + 1
          nextId := acc.nextId + 1 }

/-- Result of processing one candidate row: the updated parent record, the
children to append, and the advanced id counter. -/
structure RowResult where
  parent : SourceRecord
  kids : List SourceRecord
  nextId : Nat
deriving DecidableEq

/-- The body of the catalog loop for one row (lines 173-246), as a function
of the row's record: skip rows with fewer than 2 peaks; otherwise write
`tooManyPeaks`, dispatch, and on failure set `deblendFailed` and continue,
on success run the peak loop and write `deblendSkipped`/`nchild`. -/
def processRecord (ctx : RunCtx) (rec : SourceRecord) (nid : Nat) : RowResult :=
  if rec.footprint.peaks.length < 2 then
    ⟨rec, [], nid⟩
  else
    let rec1 := { rec with
      tooManyPeaks := some (decide (ctx.cfg.maxNumberOfPeaks < (rec.footprint.peaks.length : Int))) }
    match extDispatch ctx rec.footprint with
    | Except.error _ => ⟨{ rec1 with deblendFailed := some true }, [], nid⟩
    | Except.ok res =>
        let a := res.peaks.foldl (processPeak rec.id)
          ⟨rec.deblendSkipped, [], 0, nid⟩
        ⟨{ rec1 with
            deblendFailed := some false
            deblendSkipped := a.skipped
            nchild := some a.nchild },
          a.kids, a.nextId⟩

/-- The final content the loop body leaves in the candidate row itself; it
depends only on the row's own record (and the run context). -/
def parentOutcome (ctx : RunCtx) (rec : SourceRecord) : SourceRecord :=
  (processRecord ctx rec 0).parent

/-- Observable control events of one loop iteration: the pre-hook call
(line 183), the external dispatch (line 190), the post-hook call (line 248). -/
inductive Event where
  | preHook (i : Nat)
  | extCall (i : Nat)
  | postHook (i : Nat)
deriving DecidableEq

/-- The row index an event belongs to. -/
def eventIdx : Event → Nat
  | Event.preHook i => i
  | Event.extCall i => i
  | Event.postHook i => i

/-- The events emitted while processing row `i` holding record `rec`:
nothing for a non-candidate; pre-hook and dispatch always for a candidate;
the post-hook only when the dispatch returns normally. -/
def rowTrace (ctx : RunCtx) (i : Nat) (rec : SourceRecord) : List Event :=
  if rec.footprint.peaks.length < 2 then []
  else
    Event.preHook i :: Event.extCall i ::
      (match extDispatch ctx rec.footprint with
       | Except.ok _ => [Event.postHook i]
       | Except.error _ => [])

/-- One iteration of the catalog loop at position `i`: the parent update is
written in place and the children are appended at the end of the (current)
catalog, exactly as `srcs.addNew()` does. -/
def stepRow (ctx : RunCtx) (i : Nat) (st : DeblendState) :
    DeblendState × List Event :=
  match st.cat[i]? with
  | none => (st, [])
  | some rec =>
      if rec.footprint.peaks.length < 2 then (st, [])
      else
        let r := processRecord ctx rec st.nextId
        (⟨st.cat.set i r.parent ++ r.kids, r.nextId⟩, rowTrace ctx i rec)

/-- The `for i,src in enumerate(srcs)` loop: position based iteration over
the catalog as it grows (a row appended during the loop is visited when the
index reaches it).  `fuel` bounds the number of iterations; `none` means the
fuel ran out before the iteration was finished. -/
def loopGo (ctx : RunCtx) : Nat → Nat → DeblendState →
    Option (DeblendState × List Event)
  | 0, i, st => if i < st.cat.length then none else some (st, [])
  | fuel + 1, i, st =>
      if i < st.cat.length then
        match loopGo ctx fuel (i + 1) (stepRow ctx i st).1 with
        | none => none
        | some (out, t) => some (out, (stepRow ctx i st).2 ++ t)
      else some (st, [])

/-- `SourceDeblendTask.deblend` (and hence `run`): iterate the catalog from
position 0.  The summary-log snapshot `n0 = len(srcs)` of line 170 has no
effect on the state and is not represented. -/
def deblendRun (ctx : RunCtx) (fuel : Nat) (st : DeblendState) :
    Option (DeblendState × List Event) :=
  loopGo ctx fuel 0 st

/-- Single pass over exactly `n` positions, ignoring growth. -/
def snapGo (ctx : RunCtx) : Nat → Nat → DeblendState → DeblendState
  | 0, _, st => st
  | n + 1, i, st => snapGo ctx n (i + 1) (stepRow ctx i st).1

/-- Refinement reference following the spec's words (§4.1 step 2): snapshot
the number of rows present at call start and iterate exactly that many rows
by position, regardless of rows appended during the loop. -/
def snapshotRun (ctx : RunCtx) (st : DeblendState) : DeblendState :=
  snapGo ctx st.cat.length 0 st

/-- Whether the external dispatch on footprint `fp` returns normally. -/
def dispatchOk (ctx : RunCtx) (fp : Footprint) : Bool :=
  match extDispatch ctx fp with
  | Except.ok _ => true
  | Except.error _ => false

/-! ### Concrete fixtures used in counterexamples and witnesses -/

def pkA : Peak := ⟨0, 0⟩

def pkB : Peak := ⟨1, 1⟩

def boxP : BBox := ⟨0, 0, 10, 10⟩

def boxC : BBox := ⟨0, 0, 5, 5⟩

def boxG : BBox := ⟨0, 0, 2, 2⟩

/-- A 2-peak footprint (a deblend candidate). -/
def fpP : Footprint := ⟨[pkA, pkB], boxP⟩

/-- A 2-peak footprint used as a flux portion, making a multi-peak child. -/
def fpC : Footprint := ⟨[pkA, pkB], boxC⟩

/-- A single-peak footprint. -/
def fpG : Footprint := ⟨[pkA], boxG⟩

/-- A position-independent PSF of determinant radius 1. -/
def psf0 : Psf := ⟨⟨1⟩, fun _ => ⟨1⟩⟩

/-- A PSF whose position-dependent shape differs at `boxP` from its
no-argument shape. -/
def psfVar : Psf := ⟨⟨1⟩, fun b => if b = boxP then ⟨2⟩ else ⟨1⟩⟩

/-- An upstream catalog row: all deblend fields at their defaults. -/
def blankRec (i : Nat) (fp : Footprint) : SourceRecord :=
  ⟨i, 0, fp, none, none, none, none, none, none, none, none, none, none⟩

/-- An ordinary per-peak outcome carrying flux portion `h`. -/
def goodPeak (h : Footprint) : DeblendedPeak :=
  ⟨false, some h, false, (0, 0), 0, none, false, false⟩

/-- A skip-flagged per-peak outcome. -/
def skipPk : DeblendedPeak := ⟨true, some fpG, false, (0, 0), 0, none, false, false⟩

/-- A per-peak outcome with no flux portion. -/
def noPortionPk : DeblendedPeak := ⟨false, none, false, (0, 0), 0, none, false, false⟩

/-- A per-peak outcome fitted as a point source. -/
def psfPk : DeblendedPeak := ⟨false, some fpG, true, (3, 4), 5, some (), false, false⟩

/-- C1 counterexample routine: the 2-peak parent footprint gets a 2-peak
flux portion, that child footprint gets a single-peak flux portion. -/
def extC1 : Footprint → ℚ → ℚ → BaselineArgs → Except Unit DeblendResult :=
  fun fp _ _ _ =>
    if fp = fpP then Except.ok ⟨[goodPeak fpC]⟩
    else if fp = fpC then Except.ok ⟨[goodPeak fpG]⟩
    else Except.error ()

def ctxC1 : RunCtx := ⟨{}, psf0, 1, extC1⟩

def stC1 : DeblendState := ⟨[blankRec 1 fpP], 100⟩

def ctxW1 : RunCtx := ⟨{}, psf0, 1, fun _ _ _ _ => Except.ok ⟨[goodPeak fpG]⟩⟩

def stW1 : DeblendState := ⟨[blankRec 1 fpP], 40⟩

def outW1 : DeblendState :=
  ⟨[{ blankRec 1 fpP with
      tooManyPeaks := some true
      deblendFailed := some false
      deblendSkipped := some false
      nchild := some 1 },
    mkChild 40 1 (goodPeak fpG) fpG], 41⟩

def tW1 : List Event := [Event.preHook 0, Event.extCall 0, Event.postHook 0]

def ctxW2 : RunCtx := ⟨{}, psf0, 1, fun _ _ _ _ => Except.error ()⟩

def stW2 : DeblendState := ⟨[blankRec 1 fpP, blankRec 2 fpP], 50⟩

def outW2 : DeblendState :=
  ⟨[{ blankRec 1 fpP with tooManyPeaks := some true, deblendFailed := some true },
    { blankRec 2 fpP with tooManyPeaks := some true, deblendFailed := some true }],
    50⟩

def tW2 : List Event :=
  [Event.preHook 0, Event.extCall 0, Event.preHook 1, Event.extCall 1]

def resW3 : DeblendResult := ⟨[goodPeak fpG, skipPk, noPortionPk]⟩

def ctxW3 : RunCtx := ⟨{}, psf0, 1, fun _ _ _ _ => Except.ok resW3⟩

def stW3 : DeblendState := ⟨[blankRec 1 fpP], 60⟩

def recC4 : SourceRecord := blankRec 1 fpP

def ctxC4 : RunCtx := ⟨{}, psf0, 1, fun _ _ _ _ => Except.ok ⟨[]⟩⟩

def ctxC4e : RunCtx := ⟨{}, psf0, 1, fun _ _ _ _ => Except.error ()⟩

def resW5 : DeblendResult := ⟨[goodPeak fpG, skipPk]⟩

def ctxW5 : RunCtx := ⟨{}, psf0, 1, fun _ _ _ _ => Except.ok resW5⟩

def ctxW6 : RunCtx := ⟨{}, psf0, 1, fun _ _ _ _ => Except.error ()⟩

def stW6 : DeblendState := ⟨[blankRec 3 fpG], 10⟩

def recW7 : SourceRecord := blankRec 1 fpP

def ctxW7 : RunCtx := ⟨{}, psf0, 1, fun _ _ _ _ => Except.ok ⟨[psfPk]⟩⟩

def ctxW9 : RunCtx := ⟨{}, psf0, 1, fun _ _ _ _ => Except.ok ⟨[goodPeak fpG]⟩⟩

def stW9 : DeblendState := ⟨[blankRec 1 fpP], 30⟩

def outW9 : DeblendState :=
  ⟨[{ blankRec 1 fpP with
      tooManyPeaks := some true
      deblendFailed := some false
      deblendSkipped := some false
      nchild := some 1 },
    mkChild 30 1 (goodPeak fpG) fpG], 31⟩

def tW9 : List Event := [Event.preHook 0, Event.extCall 0, Event.postHook 0]

def ctxW10 : RunCtx := ⟨{}, psf0, 1, fun _ _ _ _ => Except.error ()⟩

def stW10 : DeblendState := ⟨[blankRec 1 fpP], 70⟩

/-! ### Characterizations of the peak loop -/

theorem processPeak_skipped (pid : Nat) (acc : PeakAcc) (pk : DeblendedPeak) :
    (processPeak pid acc pk).skipped = some (skipStatus pk) := by
  unfold processPeak skipStatus
  cases hs : pk.skip with
  | true => simp
  | false => cases hf : pk.fluxPortion <;> simp [hf]

theorem foldl_processPeak_skipped (pid : Nat) (ps : List DeblendedPeak)
    (acc : PeakAcc) :
    (ps.foldl (processPeak pid) acc).skipped
      = ps.foldl (fun _ pk => some (skipStatus pk)) acc.skipped := by
  induction ps generalizing acc with
  | nil => rfl
  | cons p ps ih =>
      simp only [List.foldl_cons, ih, processPeak_skipped]

theorem foldl_skipStatus_getLast (ps : List DeblendedPeak) (s : Option Bool)
    (pk : DeblendedPeak) (h : ps.getLast? = some pk) :
    ps.foldl (fun _ pk => some (skipStatus pk)) s = some (skipStatus pk) := by
  induction ps generalizing s with
  | nil => simp at h
  | cons p ps ih =>
      cases ps with
      | nil =>
          simp at h
          simp [h]
      | cons q qs =>
          rw [List.getLast?_cons_cons] at h
          simpa using ih (some (skipStatus p)) h

theorem foldl_processPeak_nchild (pid : Nat) (ps : List DeblendedPeak)
    (acc : PeakAcc) :
    (ps.foldl (processPeak pid) acc).nchild
      = acc.nchild + (ps.filter keepPeak).length := by
  induction ps generalizing acc with
  | nil => simp
  | cons p ps ih =>
      simp only [List.foldl_cons, ih]
      unfold processPeak keepPeak
      cases hs : p.skip with
      | true => simp [hs]
      | false =>
          cases hf : p.fluxPortion with
          | none => simp [hs, hf]
          | some heavy =>
              simp [hs, hf]
              omega

theorem foldl_processPeak_kids_length (pid : Nat) (ps : List DeblendedPeak)
    (acc : PeakAcc) :
    (ps.foldl (processPeak pid) acc).kids.length
      = acc.kids.length + (ps.filter keepPeak).length := by
  induction ps generalizing acc with
  | nil => simp
  | cons p ps ih =>
      simp only [List.foldl_cons, ih]
      unfold processPeak keepPeak
      cases hs : p.skip with
      | true => simp [hs]
      | false =>
          cases hf : p.fluxPortion with
          | none => simp [hs, hf]
          | some heavy =>
              simp [hs, hf]
              omega

theorem foldl_processPeak_kids_mem (pid : Nat) (ps : List DeblendedPeak)
    (acc : PeakAcc) (c : SourceRecord)
    (h : c ∈ (ps.foldl (processPeak pid) acc).kids) :
    c ∈ acc.kids ∨
      ∃ pk ∈ ps, ∃ n heavy, pk.fluxPortion = some heavy ∧
        c = mkChild n pid pk heavy := by
  induction ps generalizing acc with
  | nil => exact Or.inl h
  | cons p ps ih =>
      rw [List.foldl_cons] at h
      rcases ih (processPeak pid acc p) h with hin | ⟨pk, hpk, n, heavy, hf, hc⟩
      · unfold processPeak at hin
        cases hs : p.skip with
        | true =>
            rw [hs] at hin
            exact Or.inl (by simpa using hin)
        | false =>
            rw [hs] at hin
            cases hf : p.fluxPortion with
            | none =>
                rw [hf] at hin
                exact Or.inl (by simpa using hin)
            | some heavy =>
                rw [hf] at hin
                simp at hin
                rcases hin with hin | hin
                · exact Or.inl hin
                · exact Or.inr ⟨p, by simp, acc.nextId, heavy, hf, hin⟩
      · exact Or.inr ⟨pk, by simp [hpk], n, heavy, hf, hc⟩

/-! ### Characterizations of one loop body -/

theorem processRecord_parent_nextId (ctx : RunCtx) (rec : SourceRecord)
    (nid : Nat) :
    (processRecord ctx rec nid).parent = parentOutcome ctx rec := by
  unfold parentOutcome processRecord
  by_cases h2 : rec.footprint.peaks.length < 2
  · simp [h2]
  · simp only [h2, if_false]
    cases hx : extDispatch ctx rec.footprint with
    | error e => simp
    | ok res =>
        simp only
        congr 1
        · rw [foldl_processPeak_skipped, foldl_processPeak_skipped]
        · rw [foldl_processPeak_nchild, foldl_processPeak_nchild]

theorem parentOutcome_small (ctx : RunCtx) (rec : SourceRecord)
    (h2 : rec.footprint.peaks.length < 2) :
    parentOutcome ctx rec = rec := by
  unfold parentOutcome processRecord
  simp [h2]

theorem parentOutcome_error (ctx : RunCtx) (rec : SourceRecord)
    (h2 : ¬ rec.footprint.peaks.length < 2)
    (herr : extDispatch ctx rec.footprint = Except.error ()) :
    parentOutcome ctx rec =
      { rec with
        tooManyPeaks :=
          some (decide (ctx.cfg.maxNumberOfPeaks < (rec.footprint.peaks.length : Int)))
        deblendFailed := some true } := by
  unfold parentOutcome processRecord
  simp [h2, herr]

/-! ### Frame properties of one catalog-loop iteration -/

theorem stepRow_get_self (ctx : RunCtx) (i : Nat) (st : DeblendState)
    (rec : SourceRecord) (h : st.cat[i]? = some rec) :
    (stepRow ctx i st).1.cat[i]? = some (parentOutcome ctx rec) := by
  have hlen : i < st.cat.length := (List.getElem?_eq_some.mp h).1
  unfold stepRow
  rw [h]
  by_cases h2 : rec.footprint.peaks.length < 2
  · simp only [h2, if_true]
    rw [h, parentOutcome_small ctx rec h2]
  · simp only [h2, if_false]
    have hlen' : i < (st.cat.set i (processRecord ctx rec st.nextId).parent).length := by
      simpa using hlen
    rw [List.getElem?_append_left hlen', List.getElem?_set_self hlen,
      processRecord_parent_nextId]

theorem stepRow_get_other (ctx : RunCtx) (i j : Nat) (st : DeblendState)
    (hij : i ≠ j) (hj : j < st.cat.length) :
    (stepRow ctx i st).1.cat[j]? = st.cat[j]? := by
  unfold stepRow
  cases h : st.cat[i]? with
  | none => rfl
  | some rec =>
      by_cases h2 : rec.footprint.peaks.length < 2
      · simp [h2]
      · simp only [h2, if_false]
        have hj' : j < (st.cat.set i (processRecord ctx rec st.nextId).parent).length := by
          simpa using hj
        rw [List.getElem?_append_left hj', List.getElem?_set_ne hij]

theorem stepRow_length_le (ctx : RunCtx) (i : Nat) (st : DeblendState) :
    st.cat.length ≤ (stepRow ctx i st).1.cat.length := by
  unfold stepRow
  cases h : st.cat[i]? with
  | none => simp
  | some rec =>
      by_cases h2 : rec.footprint.peaks.length < 2
      · simp [h2]
      · simp [h2]

theorem rowTrace_eventIdx (ctx : RunCtx) (i : Nat) (rec : SourceRecord)
    (e : Event) (h : e ∈ rowTrace ctx i rec) : eventIdx e = i := by
  unfold rowTrace at h
  by_cases h2 : rec.footprint.peaks.length < 2
  · simp [h2] at h
  · simp only [h2, if_false] at h
    cases hx : extDispatch ctx rec.footprint with
    | ok res =>
        rw [hx] at h
        simp at h
        rcases h with h | h | h <;> simp [h, eventIdx]
    | error e' =>
        rw [hx] at h
        simp at h
        rcases h with h | h <;> simp [h, eventIdx]

/-! ### The catalog loop: each original row is processed exactly once -/

theorem loopGo_get (ctx : RunCtx) :
    ∀ (fuel i : Nat) (st : DeblendState) (out : DeblendState) (t : List Event),
      loopGo ctx fuel i st = some (out, t) →
      ∀ (j : Nat) (rec : SourceRecord), st.cat[j]? = some rec →
        out.cat[j]? = some (if j < i then rec else parentOutcome ctx rec) := by
  intro fuel
  induction fuel with
  | zero =>
      intro i st out t hrun j rec hj
      unfold loopGo at hrun
      by_cases hi : i < st.cat.length
      · simp [hi] at hrun
      · simp [hi] at hrun
        have hjlen : j < st.cat.length := (List.getElem?_eq_some.mp hj).1
        have hji : j < i := lt_of_lt_of_le hjlen (le_of_not_lt hi)
        rw [← hrun.1, if_pos hji]
        exact hj
  | succ fuel ih =>
      intro i st out t hrun j rec hj
      unfold loopGo at hrun
      by_cases hi : i < st.cat.length
      · simp only [hi, if_true] at hrun
        cases hnext : loopGo ctx fuel (i + 1) (stepRow ctx i st).1 with
        | none => rw [hnext] at hrun; exact absurd hrun (by simp)
        | some p =>
            rw [hnext] at hrun
            simp at hrun
            have hout : p.1 = out := by
              cases p
              simp at hrun
              exact hrun.1
            have hjlen : j < st.cat.length := (List.getElem?_eq_some.mp hj).1
            rcases Nat.lt_trichotomy j i with hji | hji | hji
            · have hstep : (stepRow ctx i st).1.cat[j]? = some rec := by
                rw [stepRow_get_other ctx i j st (Nat.ne_of_gt hji) hjlen]
                exact hj
              have := ih (i + 1) (stepRow ctx i st).1 p.1 p.2
                (by simpa using hnext) j rec hstep
              rw [hout] at this
              rw [this, if_pos (Nat.lt_succ_of_lt hji), if_pos hji]
            · subst hji
              have hstep : (stepRow ctx j st).1.cat[j]? =
                  some (parentOutcome ctx rec) := stepRow_get_self ctx j st rec hj
              have := ih (j + 1) (stepRow ctx j st).1 p.1 p.2
                (by simpa using hnext) j (parentOutcome ctx rec) hstep
              rw [hout] at this
              rw [this, if_pos (Nat.lt_succ_self j), if_neg (lt_irrefl j)]
            · have hstep : (stepRow ctx i st).1.cat[j]? = some rec := by
                rw [stepRow_get_other ctx i j st (Nat.ne_of_lt hji) hjlen]
                exact hj
              have := ih (i + 1) (stepRow ctx i st).1 p.1 p.2
                (by simpa using hnext) j rec hstep
              rw [hout] at this
              rw [this, if_neg (by omega), if_neg (by omega)]
      · simp [hi] at hrun
        have hjlen : j < st.cat.length := (List.getElem?_eq_some.mp hj).1
        have hji : j < i := lt_of_lt_of_le hjlen (le_of_not_lt hi)
        rw [← hrun.1, if_pos hji]
        exact hj

/-! ### Trace structure of the loop -/

theorem stepRow_trace (ctx : RunCtx) (i : Nat) (st : DeblendState)
    (rec : SourceRecord) (h : st.cat[i]? = some rec) :
    (stepRow ctx i st).2 = rowTrace ctx i rec := by
  unfold stepRow
  rw [h]
  by_cases h2 : rec.footprint.peaks.length < 2
  · simp [h2, rowTrace]
  · simp [h2]

theorem stepRow_trace_idx (ctx : RunCtx) (i : Nat) (st : DeblendState)
    (e : Event) (h : e ∈ (stepRow ctx i st).2) : eventIdx e = i := by
  unfold stepRow at h
  cases hg : st.cat[i]? with
  | none => rw [hg] at h; simp at h
  | some rec =>
      rw [hg] at h
      by_cases h2 : rec.footprint.peaks.length < 2
      · simp [h2] at h
      · simp only [h2, if_false] at h
        exact rowTrace_eventIdx ctx i rec e h

theorem loopGo_trace_idx (ctx : RunCtx) :
    ∀ (fuel i : Nat) (st : DeblendState) (out : DeblendState) (t : List Event),
      loopGo ctx fuel i st = some (out, t) →
      ∀ e ∈ t, i ≤ eventIdx e := by
  intro fuel
  induction fuel with
  | zero =>
      intro i st out t hrun e he
      unfold loopGo at hrun
      by_cases hi : i < st.cat.length
      · simp [hi] at hrun
      · simp [hi] at hrun
        rw [hrun.2] at he
        simp at he
  | succ fuel ih =>
      intro i st out t hrun e he
      unfold loopGo at hrun
      by_cases hi : i < st.cat.length
      · simp only [hi, if_true] at hrun
        cases hnext : loopGo ctx fuel (i + 1) (stepRow ctx i st).1 with
        | none => rw [hnext] at hrun; exact absurd hrun (by simp)
        | some p =>
            rw [hnext] at hrun
            simp at hrun
            rw [← hrun.2] at he
            rcases List.mem_append.mp he with he | he
            · exact le_of_eq (stepRow_trace_idx ctx i st e he).symm
            · have := ih (i + 1) (stepRow ctx i st).1 p.1 p.2
                (by simpa using hnext) e he
              omega
      · simp [hi] at hrun
        rw [hrun.2] at he
        simp at he

theorem loopGo_trace (ctx : RunCtx) :
    ∀ (fuel i : Nat) (st : DeblendState) (out : DeblendState) (t : List Event),
      loopGo ctx fuel i st = some (out, t) →
      ∀ (d : Nat) (rec : SourceRecord), i ≤ d → st.cat[d]? = some rec →
        (∀ e ∈ rowTrace ctx d rec, e ∈ t) ∧
        (∀ e : Event, eventIdx e = d → e ∈ t → e ∈ rowTrace ctx d rec) := by
  intro fuel
  induction fuel with
  | zero =>
      intro i st out t hrun d rec hid hd
      unfold loopGo at hrun
      by_cases hi : i < st.cat.length
      · simp [hi] at hrun
      · have : d < st.cat.length := (List.getElem?_eq_some.mp hd).1
        omega
  | succ fuel ih =>
      intro i st out t hrun d rec hid hd
      unfold loopGo at hrun
      by_cases hi : i < st.cat.length
      · simp only [hi, if_true] at hrun
        cases hnext : loopGo ctx fuel (i + 1) (stepRow ctx i st).1 with
        | none => rw [hnext] at hrun; exact absurd hrun (by simp)
        | some p =>
            rw [hnext] at hrun
            simp at hrun
            rcases Nat.lt_or_ge i d with hlt | hge
            · have hdlen : d < st.cat.length := (List.getElem?_eq_some.mp hd).1
              have hd1 : (stepRow ctx i st).1.cat[d]? = some rec := by
                rw [stepRow_get_other ctx i d st (Nat.ne_of_lt hlt) hdlen]
                exact hd
              have hih := ih (i + 1) (stepRow ctx i st).1 p.1 p.2
                (by simpa using hnext) d rec hlt hd1
              constructor
              · intro e he
                rw [← hrun.2]
                exact List.mem_append_right _ (hih.1 e he)
              · intro e hidx hpost
                rw [← hrun.2] at hpost
                rcases List.mem_append.mp hpost with hz | hz
                · have := stepRow_trace_idx ctx i st _ hz
                  omega
                · exact hih.2 e hidx hz
            · have hdi : d = i := le_antisymm (by omega) hid
              subst hdi
              constructor
              · intro e he
                rw [← hrun.2]
                refine List.mem_append_left _ ?_
                rw [stepRow_trace ctx d st rec hd]
                exact he
              · intro e hidx hpost
                rw [← hrun.2] at hpost
                rcases List.mem_append.mp hpost with hz | hz
                · rw [stepRow_trace ctx d st rec hd] at hz
                  exact hz
                · have := loopGo_trace_idx ctx fuel (d + 1) (stepRow ctx d st).1
                    p.1 p.2 (by simpa using hnext) _ hz
                  omega
      · have : d < st.cat.length := (List.getElem?_eq_some.mp hd).1
        omega


/-! ### Snapshot equivalence: when all flux portions are single-peak -/

/-- Hypothesis on the external routine: every flux portion it returns has
fewer than 2 peaks (the realistic situation: a child footprint holds one
peak). -/
def SinglePeakPortions (ctx : RunCtx) : Prop :=
  ∀ (fp : Footprint) (w s : ℚ) (args : BaselineArgs) (res : DeblendResult),
    ctx.ext fp w s args = Except.ok res →
    ∀ pk ∈ res.peaks, ∀ heavy, pk.fluxPortion = some heavy →
      heavy.peaks.length < 2

theorem processRecord_kids_small (ctx : RunCtx) (H : SinglePeakPortions ctx)
    (rec : SourceRecord) (nid : Nat) :
    ∀ c ∈ (processRecord ctx rec nid).kids, c.footprint.peaks.length < 2 := by
  intro c hc
  unfold processRecord at hc
  by_cases h2 : rec.footprint.peaks.length < 2
  · simp [h2] at hc
  · simp only [h2, if_false] at hc
    cases hx : extDispatch ctx rec.footprint with
    | error e => rw [hx] at hc; simp at hc
    | ok res =>
        rw [hx] at hc
        simp only at hc
        rcases foldl_processPeak_kids_mem rec.id res.peaks _ c hc with
          hin | ⟨pk, hpk, n, heavy, hf, hcc⟩
        · simp at hin
        · have := H rec.footprint (getPsfFwhm ctx.psf rec.footprint.bbox)
            ctx.sigma1 (mkBaselineArgs ctx.cfg) res hx pk hpk heavy hf
          rw [hcc]
          exact this

theorem loopGo_small_tail (ctx : RunCtx) :
    ∀ (fuel i : Nat) (st : DeblendState) (out : DeblendState) (t : List Event),
      (∀ (j : Nat) (rec : SourceRecord), i ≤ j → st.cat[j]? = some rec →
        rec.footprint.peaks.length < 2) →
      loopGo ctx fuel i st = some (out, t) →
      out = st ∧ t = [] := by
  intro fuel
  induction fuel with
  | zero =>
      intro i st out t hsmall hrun
      unfold loopGo at hrun
      by_cases hi : i < st.cat.length
      · simp [hi] at hrun
      · simp [hi] at hrun
        exact ⟨hrun.1.symm, hrun.2⟩
  | succ fuel ih =>
      intro i st out t hsmall hrun
      unfold loopGo at hrun
      by_cases hi : i < st.cat.length
      · simp only [hi, if_true] at hrun
        have hrec : st.cat[i]? = some st.cat[i] := List.getElem?_eq_getElem hi
        have hsm : st.cat[i].footprint.peaks.length < 2 :=
          hsmall i st.cat[i] le_rfl hrec
        have hstep : stepRow ctx i st = (st, []) := by
          unfold stepRow
          rw [hrec]
          simp [hsm]
        rw [hstep] at hrun
        cases hnext : loopGo ctx fuel (i + 1) st with
        | none => rw [hnext] at hrun; exact absurd hrun (by simp)
        | some p =>
            rw [hnext] at hrun
            simp at hrun
            subst hrun
            exact ih (i + 1) st out t
              (fun j rec hj hg => hsmall j rec (by omega) hg) hnext
      · simp [hi] at hrun
        exact ⟨hrun.1.symm, hrun.2⟩

theorem loopGo_snapshot (ctx : RunCtx) (H : SinglePeakPortions ctx) (N : Nat) :
    ∀ (fuel i : Nat) (st : DeblendState) (out : DeblendState) (t : List Event),
      N ≤ st.cat.length → i ≤ N →
      (∀ (j : Nat) (rec : SourceRecord), N ≤ j → st.cat[j]? = some rec →
        rec.footprint.peaks.length < 2) →
      loopGo ctx fuel i st = some (out, t) →
      out = snapGo ctx (N - i) i st ∧ ∀ e ∈ t, eventIdx e < N := by
  intro fuel
  induction fuel with
  | zero =>
      intro i st out t hN hiN hbig hrun
      unfold loopGo at hrun
      by_cases hi : i < st.cat.length
      · simp [hi] at hrun
      · simp [hi] at hrun
        have hiN' : i = N := by omega
        subst hiN'
        refine ⟨?_, ?_⟩
        · rw [← hrun.1, Nat.sub_self]
          rfl
        · intro e he
          rw [hrun.2] at he
          simp at he
  | succ fuel ih =>
      intro i st out t hN hiN hbig hrun
      rcases Nat.lt_or_ge i N with hiltN | higeN
      · have hi : i < st.cat.length := by omega
        unfold loopGo at hrun
        simp only [hi, if_true] at hrun
        cases hnext : loopGo ctx fuel (i + 1) (stepRow ctx i st).1 with
        | none => rw [hnext] at hrun; exact absurd hrun (by simp)
        | some p =>
            rw [hnext] at hrun
            simp at hrun
            have hN1 : N ≤ (stepRow ctx i st).1.cat.length :=
              le_trans hN (stepRow_length_le ctx i st)
            have hbig1 : ∀ (j : Nat) (rec : SourceRecord), N ≤ j →
                (stepRow ctx i st).1.cat[j]? = some rec →
                rec.footprint.peaks.length < 2 := by
              intro j rec hNj hg
              by_cases hjlen : j < st.cat.length
              · rw [stepRow_get_other ctx i j st (by omega) hjlen] at hg
                exact hbig j rec hNj hg
              · unfold stepRow at hg
                cases hreci : st.cat[i]? with
                | none =>
                    rw [hreci] at hg
                    exact absurd ((List.getElem?_eq_some.mp hg).1) hjlen
                | some reci =>
                    rw [hreci] at hg
                    by_cases h2 : reci.footprint.peaks.length < 2
                    · simp only [h2, if_true] at hg
                      exact absurd ((List.getElem?_eq_some.mp hg).1) hjlen
                    · simp only [h2, if_false] at hg
                      have hlen2 :
                          (st.cat.set i (processRecord ctx reci st.nextId).parent).length ≤ j := by
                        simpa using Nat.le_of_not_lt hjlen
                      rw [List.getElem?_append_right hlen2] at hg
                      have hmem : rec ∈ (processRecord ctx reci st.nextId).kids := by
                        have := (List.getElem?_eq_some.mp hg).2
                        rw [← this]
                        exact List.getElem_mem _
                      exact processRecord_kids_small ctx H reci st.nextId rec hmem
            have hih := ih (i + 1) (stepRow ctx i st).1 p.1 p.2 hN1 (by omega) hbig1
              (by simpa using hnext)
            constructor
            · rw [← hrun.1, hih.1]
              have hNi : N - i = (N - (i + 1)) + 1 := by omega
              rw [hNi]
              rfl
            · intro e he
              rw [← hrun.2] at he
              rcases List.mem_append.mp he with hz | hz
              · have := stepRow_trace_idx ctx i st e hz
                omega
              · exact hih.2 e hz
      · have hiN' : i = N := by omega
        subst hiN'
        have hres := loopGo_small_tail ctx (fuel + 1) i st out t
          (fun j rec hj hg => hbig j rec hj hg) hrun
        refine ⟨?_, ?_⟩
        · rw [hres.1, Nat.sub_self]
          rfl
        · intro e he
          rw [hres.2] at he
          simp at he

/-! ### Branch characterizations of the loop body -/

theorem stepRow_candidate (ctx : RunCtx) (i : Nat) (st : DeblendState)
    (rec : SourceRecord) (h : st.cat[i]? = some rec)
    (h2 : ¬ rec.footprint.peaks.length < 2) :
    stepRow ctx i st =
      (⟨st.cat.set i (processRecord ctx rec st.nextId).parent
          ++ (processRecord ctx rec st.nextId).kids,
        (processRecord ctx rec st.nextId).nextId⟩, rowTrace ctx i rec) := by
  unfold stepRow
  rw [h]
  simp only [h2, if_false]

theorem processRecord_ok (ctx : RunCtx) (rec : SourceRecord) (nid : Nat)
    (res : DeblendResult) (h2 : ¬ rec.footprint.peaks.length < 2)
    (hok : extDispatch ctx rec.footprint = Except.ok res) :
    processRecord ctx rec nid =
      ⟨{ rec with
          tooManyPeaks :=
            some (decide (ctx.cfg.maxNumberOfPeaks < (rec.footprint.peaks.length : Int)))
          deblendFailed := some false
          deblendSkipped :=
            (res.peaks.foldl (processPeak rec.id) ⟨rec.deblendSkipped, [], 0, nid⟩).skipped
          nchild :=
            some (res.peaks.foldl (processPeak rec.id) ⟨rec.deblendSkipped, [], 0, nid⟩).nchild },
        (res.peaks.foldl (processPeak rec.id) ⟨rec.deblendSkipped, [], 0, nid⟩).kids,
        (res.peaks.foldl (processPeak rec.id) ⟨rec.deblendSkipped, [], 0, nid⟩).nextId⟩ := by
  unfold processRecord
  rw [if_neg h2, hok]

theorem processRecord_err (ctx : RunCtx) (rec : SourceRecord) (nid : Nat)
    (h2 : ¬ rec.footprint.peaks.length < 2)
    (herr : extDispatch ctx rec.footprint = Except.error ()) :
    processRecord ctx rec nid =
      ⟨{ rec with
          tooManyPeaks :=
            some (decide (ctx.cfg.maxNumberOfPeaks < (rec.footprint.peaks.length : Int)))
          deblendFailed := some true }, [], nid⟩ := by
  unfold processRecord
  rw [if_neg h2, herr]

/-! ### The claims -/

/-- C1, counterexample: the row count is *not* an iteration bound.  With one
2-peak row at call start and an external routine that returns a 2-peak flux
portion, the actual run (`deblendRun`) visits and deblends the appended
child in the same pass — final catalog has 3 rows and the child row (index
1) has its `nchild` written — whereas the snapshot-bounded single pass the
claim describes (`snapshotRun`) produces 2 rows and never touches the child. -/
theorem singlePassCounterexample :
    (deblendRun ctxC1 4 stC1).map (fun p => p.1.cat.length) = some 3 ∧
    (snapshotRun ctxC1 stC1).cat.length = 2 ∧
    (deblendRun ctxC1 4 stC1).map (fun p => (p.1.cat[1]?).map SourceRecord.nchild)
      = some (some (some 1)) := by
  refine ⟨by decide, by decide, by decide⟩

/-- C1, amended: the loop iterates the growing catalog, so appended children
are visited; they are never *examined as deblend candidates* exactly when
every flux portion returned by the external routine has fewer than 2 peaks,
in which case a completed run is equal to the snapshot-bounded single pass
of the spec and no loop event concerns an appended row. -/
theorem singlePassSnapshotEquiv (ctx : RunCtx) (fuel : Nat)
    (st0 out : DeblendState) (t : List Event)
    (H : SinglePeakPortions ctx)
    (hrun : deblendRun ctx fuel st0 = some (out, t)) :
    out = snapshotRun ctx st0 ∧ ∀ e ∈ t, eventIdx e < st0.cat.length := by
  have hres := loopGo_snapshot ctx H st0.cat.length fuel 0 st0 out t le_rfl
    (Nat.zero_le _)
    (fun j rec hj hg => absurd ((List.getElem?_eq_some.mp hg).1) (by omega))
    hrun
  constructor
  · rw [hres.1, Nat.sub_zero]
    rfl
  · exact hres.2

theorem ctxW1_singlePeak : SinglePeakPortions ctxW1 := by
  intro fp w s args res hok pk hpk heavy hf
  unfold ctxW1 at hok
  simp at hok
  subst hok
  simp at hpk
  subst hpk
  unfold goodPeak at hf
  simp at hf
  subst hf
  decide

/-- C1, witness for the amended theorem at a concrete single-peak-portions
run. -/
theorem singlePassSnapshotEquivWitness :
    outW1 = snapshotRun ctxW1 stW1 ∧ ∀ e ∈ tW1, eventIdx e < stW1.cat.length :=
  singlePassSnapshotEquiv ctxW1 3 stW1 outW1 tW1 ctxW1_singlePeak (by decide)

/-- C2: in a completed run, a candidate whose external dispatch raises gets
`deblendFailed = true` with its `nchild` slot untouched, and *every* row
present at call start still ends at its normal outcome
(`parentOutcome`, a function of that row's own record alone), so no failure
aborts the run or affects any other detection. -/
theorem failureIsolation (ctx : RunCtx) (fuel : Nat) (st0 out : DeblendState)
    (t : List Event) (d : Nat) (recD : SourceRecord)
    (hrun : deblendRun ctx fuel st0 = some (out, t))
    (hd : st0.cat[d]? = some recD)
    (hcand : 2 ≤ recD.footprint.peaks.length)
    (hfail : extDispatch ctx recD.footprint = Except.error ()) :
    out.cat[d]? = some (parentOutcome ctx recD) ∧
    (parentOutcome ctx recD).deblendFailed = some true ∧
    (parentOutcome ctx recD).nchild = recD.nchild ∧
    ∀ (j : Nat) (rec : SourceRecord), st0.cat[j]? = some rec →
      out.cat[j]? = some (parentOutcome ctx rec) := by
  have h2 : ¬ recD.footprint.peaks.length < 2 := by omega
  have hout := parentOutcome_error ctx recD h2 hfail
  have hall : ∀ (j : Nat) (rec : SourceRecord), st0.cat[j]? = some rec →
      out.cat[j]? = some (parentOutcome ctx rec) := by
    intro j rec hj
    have := loopGo_get ctx fuel 0 st0 out t hrun j rec hj
    simpa using this
  refine ⟨hall d recD hd, ?_, ?_, hall⟩
  · rw [hout]
  · rw [hout]

/-- C2, witness: a concrete completed run whose two candidates both raise. -/
theorem failureIsolationWitness :
    outW2.cat[0]? = some (parentOutcome ctxW2 (blankRec 1 fpP)) ∧
    (parentOutcome ctxW2 (blankRec 1 fpP)).deblendFailed = some true ∧
    (parentOutcome ctxW2 (blankRec 1 fpP)).nchild = (blankRec 1 fpP).nchild ∧
    ∀ (j : Nat) (rec : SourceRecord), stW2.cat[j]? = some rec →
      outW2.cat[j]? = some (parentOutcome ctxW2 rec) :=
  failureIsolation ctxW2 3 stW2 outW2 tW2 0 (blankRec 1 fpP)
    (by decide) (by decide) (by decide) (by decide)

/-- C3: for a candidate whose dispatch succeeds, the `nchild` written to the
parent is exactly the number of per-peak outcomes that are neither
skip-flagged nor missing their flux portion (`keepPeak`), and exactly that
many child rows are appended to the catalog. -/
theorem nchildEqKeptCount (ctx : RunCtx) (i : Nat) (st : DeblendState)
    (rec : SourceRecord) (res : DeblendResult)
    (h : st.cat[i]? = some rec)
    (hcand : 2 ≤ rec.footprint.peaks.length)
    (hok : extDispatch ctx rec.footprint = Except.ok res) :
    (parentOutcome ctx rec).nchild = some (res.peaks.filter keepPeak).length ∧
    (stepRow ctx i st).1.cat.length
      = st.cat.length + (res.peaks.filter keepPeak).length := by
  have h2 : ¬ rec.footprint.peaks.length < 2 := by omega
  constructor
  · unfold parentOutcome
    rw [processRecord_ok ctx rec 0 res h2 hok]
    simp only
    rw [foldl_processPeak_nchild]
    simp
  · rw [stepRow_candidate ctx i st rec h h2]
    simp only [List.length_append, List.length_set]
    rw [processRecord_ok ctx rec st.nextId res h2 hok]
    simp only
    rw [foldl_processPeak_kids_length]
    simp

/-- C3, witness: one kept peak, one skip-flagged, one without flux portion. -/
theorem nchildEqKeptCountWitness :
    (parentOutcome ctxW3 (blankRec 1 fpP)).nchild
      = some (resW3.peaks.filter keepPeak).length ∧
    (stepRow ctxW3 0 stW3).1.cat.length
      = stW3.cat.length + (resW3.peaks.filter keepPeak).length :=
  nchildEqKeptCount ctxW3 0 stW3 (blankRec 1 fpP) resW3
    (by decide) (by decide) (by decide)

/-- C4, code bug: with the default configuration (`maxNumberOfPeaks = 0`,
documented as "<= 0: unlimited") a 2-peak candidate is still flagged
`tooManyPeaks = true` — both when the dispatch succeeds and when it raises —
because line 187 computes `len(fp.getPeaks()) > maxNumberOfPeaks` with no
guard for a non-positive cap. -/
theorem tooManyPeaksDefaultCapBug :
    ({} : SourceDeblendConfig).maxNumberOfPeaks = 0 ∧
    (parentOutcome ctxC4 recC4).tooManyPeaks = some true ∧
    (parentOutcome ctxC4e recC4).tooManyPeaks = some true := by
  refine ⟨rfl, by decide, by decide⟩

/-- C5: for a successful candidate with a non-empty outcome list, the
parent's final `deblendSkipped` equals the status of the *last* examined
outcome — `true` iff it was skip-flagged or missing its flux portion — since
every outcome overwrites the flag. -/
theorem skippedLastStatus (ctx : RunCtx) (rec : SourceRecord)
    (res : DeblendResult) (pk : DeblendedPeak)
    (hcand : 2 ≤ rec.footprint.peaks.length)
    (hok : extDispatch ctx rec.footprint = Except.ok res)
    (hlast : res.peaks.getLast? = some pk) :
    (parentOutcome ctx rec).deblendSkipped = some (skipStatus pk) := by
  have h2 : ¬ rec.footprint.peaks.length < 2 := by omega
  unfold parentOutcome
  rw [processRecord_ok ctx rec 0 res h2 hok]
  simp only
  rw [foldl_processPeak_skipped]
  exact foldl_skipStatus_getLast res.peaks rec.deblendSkipped pk hlast

/-- C5, witness: a kept peak followed by a skip-flagged last peak leaves
`deblendSkipped = true`. -/
theorem skippedLastStatusWitness :
    (parentOutcome ctxW5 (blankRec 1 fpP)).deblendSkipped
      = some (skipStatus skipPk) :=
  skippedLastStatus ctxW5 (blankRec 1 fpP) resW5 skipPk
    (by decide) (by decide) (by decide)

/-- C6: a detection with fewer than 2 peaks is skipped entirely: in a
completed run its row is unchanged in the output, the loop body leaves any
state holding it untouched (no flags written, no children appended, no id
consumed), and no event of the run concerns it — no hook call and no
external dispatch. -/
theorem fewPeaksUntouched (ctx : RunCtx) (fuel : Nat) (st0 out : DeblendState)
    (t : List Event) (i : Nat) (rec : SourceRecord)
    (hrun : deblendRun ctx fuel st0 = some (out, t))
    (h : st0.cat[i]? = some rec)
    (h2 : rec.footprint.peaks.length < 2) :
    out.cat[i]? = some rec ∧
    (∀ st : DeblendState, st.cat[i]? = some rec → stepRow ctx i st = (st, [])) ∧
    ∀ e ∈ t, eventIdx e ≠ i := by
  refine ⟨?_, ?_, ?_⟩
  · have := loopGo_get ctx fuel 0 st0 out t hrun i rec h
    simpa [parentOutcome_small ctx rec h2] using this
  · intro st hst
    unfold stepRow
    rw [hst]
    simp [h2]
  · intro e he hidx
    have := (loopGo_trace ctx fuel 0 st0 out t hrun i rec (Nat.zero_le i) h).2
      e hidx he
    unfold rowTrace at this
    rw [if_pos h2] at this
    simp at this

/-- C6, witness: a completed run on a catalog holding one single-peak
detection. -/
theorem fewPeaksUntouchedWitness :
    stW6.cat[0]? = some (blankRec 3 fpG) ∧
    (∀ st : DeblendState, st.cat[0]? = some (blankRec 3 fpG) →
      stepRow ctxW6 0 st = (st, [])) ∧
    ∀ e ∈ ([] : List Event), eventIdx e ≠ 0 :=
  fewPeaksUntouched ctxW6 2 stW6 stW6 [] 0 (blankRec 3 fpG)
    (by decide) (by decide) (by decide)

/-- C7: every child row created carries `psfCenter`/`psfFlux` iff its
`deblendedAsPsf` flag is true; when false the point-source fields stay
unwritten. -/
theorem psfFieldsIffPsf (ctx : RunCtx) (rec : SourceRecord) (nid : Nat)
    (c : SourceRecord) (hmem : c ∈ (processRecord ctx rec nid).kids) :
    (c.psfCenter.isSome = true ↔ c.deblendedAsPsf = some true) ∧
    (c.psfFlux.isSome = true ↔ c.deblendedAsPsf = some true) := by
  unfold processRecord at hmem
  by_cases h2 : rec.footprint.peaks.length < 2
  · simp [h2] at hmem
  · rw [if_neg h2] at hmem
    cases hx : extDispatch ctx rec.footprint with
    | error e =>
        rw [hx] at hmem
        simp at hmem
    | ok res =>
        rw [hx] at hmem
        simp only at hmem
        rcases foldl_processPeak_kids_mem rec.id res.peaks _ c hmem with
          hin | ⟨pk, hpkmem, n, heavy, hfp, hc⟩
        · simp at hin
        · subst hc
          unfold mkChild
          cases hp : pk.deblendedAsPsf <;> simp [hp]

/-- C7, witness: the child created from a point-source-fitted peak. -/
theorem psfFieldsIffPsfWitness :
    ((mkChild 20 1 psfPk fpG).psfCenter.isSome = true ↔
      (mkChild 20 1 psfPk fpG).deblendedAsPsf = some true) ∧
    ((mkChild 20 1 psfPk fpG).psfFlux.isSome = true ↔
      (mkChild 20 1 psfPk fpG).deblendedAsPsf = some true) :=
  psfFieldsIffPsf ctxW7 recW7 20 (mkChild 20 1 psfPk fpG) (by decide)

/-- C8, counterexample: `getPsfFwhm` does not query the PSF at the
footprint bounding box — for a PSF whose shape at `boxP` differs from its
default shape the code's value disagrees with the spec's formula, and the
code returns the same width for different boxes. -/
theorem psfFwhmBBoxCounterexample :
    getPsfFwhm psfVar boxP ≠ psfFwhmAtBBoxSpec psfVar boxP ∧
    getPsfFwhm psfVar boxP = getPsfFwhm psfVar boxC := by
  refine ⟨?_, rfl⟩
  simp [getPsfFwhm, psfFwhmAtBBoxSpec, psfVar]
  norm_num

/-- C8, amended: the width passed to the external routine is
`2.35 * psf.computeShape.detRadius` where `computeShape` takes no position:
the bounding-box argument of `_getPsfFwhm` is ignored and every candidate of
a run gets the same width. -/
theorem psfFwhmConstant (psf : Psf) (b b' : BBox) :
    getPsfFwhm psf b = psf.computeShape.detRadius * 2.35 ∧
    getPsfFwhm psf b = getPsfFwhm psf b' :=
  ⟨rfl, rfl⟩

/-- C9: in a completed run, the pre-hook fires for every candidate present
at call start — including those whose dispatch subsequently raises — while
the post-hook fires for such a candidate iff its dispatch returned normally,
so a failing candidate's post-hook is never called. -/
theorem hookInvocation (ctx : RunCtx) (fuel : Nat) (st0 out : DeblendState)
    (t : List Event) (d : Nat) (recD : SourceRecord)
    (hrun : deblendRun ctx fuel st0 = some (out, t))
    (hd : st0.cat[d]? = some recD)
    (hcand : 2 ≤ recD.footprint.peaks.length) :
    Event.preHook d ∈ t ∧
    (Event.postHook d ∈ t ↔ dispatchOk ctx recD.footprint = true) := by
  have h2 : ¬ recD.footprint.peaks.length < 2 := by omega
  have htr := loopGo_trace ctx fuel 0 st0 out t hrun d recD (Nat.zero_le d) hd
  constructor
  · apply htr.1
    unfold rowTrace
    rw [if_neg h2]
    simp
  · constructor
    · intro hpost
      have hmem := htr.2 (Event.postHook d) rfl hpost
      unfold rowTrace at hmem
      rw [if_neg h2] at hmem
      unfold dispatchOk
      cases hx : extDispatch ctx recD.footprint with
      | ok res => rfl
      | error e =>
          rw [hx] at hmem
          simp at hmem
    · intro hok
      apply htr.1
      unfold rowTrace
      rw [if_neg h2]
      unfold dispatchOk at hok
      cases hx : extDispatch ctx recD.footprint with
      | ok res => simp
      | error e =>
          rw [hx] at hok
          simp at hok

/-- C9, witness: a succeeding candidate has both hooks in the run trace. -/
theorem hookInvocationWitness :
    Event.preHook 0 ∈ tW9 ∧
    (Event.postHook 0 ∈ tW9 ↔ dispatchOk ctxW9 (blankRec 1 fpP).footprint = true) :=
  hookInvocation ctxW9 3 stW9 outW9 tW9 0 (blankRec 1 fpP)
    (by decide) (by decide) (by decide)

/-- C10: for a candidate whose dispatch raises, the loop iteration writes
only `tooManyPeaks` and `deblendFailed = true` on that row, appends no
child (catalog length unchanged), consumes no id, emits no post-hook, and
leaves every other field — including `deblendSkipped` and `nchild` —
exactly as it was. -/
theorem failureFrame (ctx : RunCtx) (i : Nat) (st : DeblendState)
    (rec : SourceRecord) (h : st.cat[i]? = some rec)
    (hcand : 2 ≤ rec.footprint.peaks.length)
    (herr : extDispatch ctx rec.footprint = Except.error ()) :
    stepRow ctx i st =
      (⟨st.cat.set i { rec with
          tooManyPeaks :=
            some (decide (ctx.cfg.maxNumberOfPeaks < (rec.footprint.peaks.length : Int)))
          deblendFailed := some true }, st.nextId⟩,
        [Event.preHook i, Event.extCall i]) ∧
    (stepRow ctx i st).1.cat.length = st.cat.length := by
  have h2 : ¬ rec.footprint.peaks.length < 2 := by omega
  have hmain : stepRow ctx i st =
      (⟨st.cat.set i { rec with
          tooManyPeaks :=
            some (decide (ctx.cfg.maxNumberOfPeaks < (rec.footprint.peaks.length : Int)))
          deblendFailed := some true }, st.nextId⟩,
        [Event.preHook i, Event.extCall i]) := by
    rw [stepRow_candidate ctx i st rec h h2,
      processRecord_err ctx rec st.nextId h2 herr]
    unfold rowTrace
    rw [if_neg h2, herr]
    simp
  refine ⟨hmain, ?_⟩
  rw [hmain]
  simp

/-- C10, witness: a concrete failing candidate. -/
theorem failureFrameWitness :
    stepRow ctxW10 0 stW10 =
      (⟨stW10.cat.set 0 { blankRec 1 fpP with
          tooManyPeaks :=
            some (decide (ctxW10.cfg.maxNumberOfPeaks <
              ((blankRec 1 fpP).footprint.peaks.length : Int)))
          deblendFailed := some true }, stW10.nextId⟩,
        [Event.preHook 0, Event.extCall 0]) ∧
    (stepRow ctxW10 0 stW10).1.cat.length = stW10.cat.length :=
  failureFrame ctxW10 0 stW10 (blankRec 1 fpP) (by decide) (by decide) (by decide)


end Deblend
